import Mathlib

/-!
Verification of the guerite container supervisor (src/guerite/monitor.py)
against its natural-language specification.

The embedding is shallow: the pure decision logic of monitor.py is
translated into executable Lean definitions.  External collaborators
(the Docker engine client and the croniter library) are modelled as
explicit oracles recording the outcome of each call, exactly as the
Python code consumes those outcomes.  Instants (datetime values) are
modelled as integers (seconds); Python dicts keyed by container id are
modelled as association lists.
-/

namespace Guerite

/-! ### Association-list model of Python dicts -/

def dict_get {α : Type} (m : List (String × α)) (k : String) : Option α :=
  (m.find? (fun p => p.1 = k)).map Prod.snd

def dict_set {α : Type} (m : List (String × α)) (k : String) (v : α) :
    List (String × α) :=
  (m.filter (fun p => p.1 ≠ k)) ++ [(k, v)]

def dict_pop {α : Type} (m : List (String × α)) (k : String) :
    List (String × α) :=
  m.filter (fun p => p.1 ≠ k)

/-! ### `_strip_guerite_suffix` (monitor.py lines 962-969)

The Python code repeatedly applies the regular expression
`^(.*)-guerite-(?:old|new)-[0-9a-f]{8}$` via `re.match` and replaces the
name with group 1 until the pattern no longer matches.  With Python `re`
semantics, `.` matches any character except a newline and `$` matches at
the end of the string or just before one trailing newline.  Because the
suffix part of the pattern has fixed length 21 and cannot contain a
newline, a match exists exactly when, after discarding one trailing
newline if present, the last 21 characters have the literal shape
`-guerite-old-XXXXXXXX` or `-guerite-new-XXXXXXXX` (X a lowercase hex
digit) and the remaining prefix is newline-free; group 1 is that prefix. -/

def is_hex_lower (c : Char) : Bool :=
  c.isDigit || (decide ('a' ≤ c) && decide (c ≤ 'f'))

def guerite_suffix_match (core : List Char) : Bool :=
  decide (21 ≤ core.length) &&
  (let tail := core.drop (core.length - 21)
   (decide (tail.take 13 = "-guerite-old-".data) ||
    decide (tail.take 13 = "-guerite-new-".data)) &&
   (tail.drop 13).all is_hex_lower) &&
  (core.take (core.length - 21)).all (fun c => decide (c ≠ '\n'))

def strip_once (s : List Char) : Option (List Char) :=
  let core := if s.getLast? = some '\n' then s.dropLast else s
  if guerite_suffix_match core then some (core.take (core.length - 21)) else none

theorem strip_once_length_lt {s p : List Char} (h : strip_once s = some p) :
    p.length < s.length := by
  unfold strip_once at h
  set core := if s.getLast? = some '\n' then s.dropLast else s with hcore
  have hcle : core.length ≤ s.length := by
    rw [hcore]
    split
    · exact Nat.le_trans (List.length_dropLast s ▸ Nat.sub_le _ _) (Nat.le_refl _)
    · exact Nat.le_refl _
  by_cases hm : guerite_suffix_match core = true
  · simp only [hm, if_true] at h
    have h21 : 21 ≤ core.length := by
      unfold guerite_suffix_match at hm
      simp only [Bool.and_eq_true, decide_eq_true_eq] at hm
      exact hm.1.1
    have : p = core.take (core.length - 21) := by
      injection h with h; exact h.symm
    subst this
    rw [List.length_take]
    have hlt : core.length - 21 < core.length := by omega
    omega
  · simp only [hm] at h
    simp at h

def strip_guerite_suffix_chars (s : List Char) : List Char :=
  match h : strip_once s with
  | none => s
  | some p => strip_guerite_suffix_chars p
termination_by s.length
decreasing_by exact strip_once_length_lt h

/-- The name-level function applied to container names throughout monitor.py. -/
def strip_guerite_suffix (s : String) : String :=
  String.mk (strip_guerite_suffix_chars s.data)

theorem strip_once_of_result (s : List Char) :
    strip_once (strip_guerite_suffix_chars s) = none := by
  induction s using strip_guerite_suffix_chars.induct with
  | case1 s h =>
      rw [strip_guerite_suffix_chars, h]
      exact h
  | case2 s p h ih =>
      rw [strip_guerite_suffix_chars, h]
      exact ih

theorem strip_guerite_suffix_chars_idem (s : List Char) :
    strip_guerite_suffix_chars (strip_guerite_suffix_chars s) =
      strip_guerite_suffix_chars s := by
  rw [strip_guerite_suffix_chars, strip_once_of_result s]

/-! ### `_toposort` (monitor.py lines 220-234)

Kahn's algorithm as written in the source: `incoming` maps each name to
its dependency set intersected with the name set; `ready` starts with
the names whose intersection is empty; the loop pops the last element of
`ready`, appends it to `result`, erases it from every remaining
dependency set, and appends any name whose set just became empty.  If
the loop did not consume every name (a cycle), the sorted name list is
returned instead.  Python sets are modelled as lists; the dict as an
association list in insertion order. -/

def sum_deps (l : List (String × List String)) : Nat :=
  (l.map (fun p => p.2.length)).sum

theorem kahn_measure (l : List (String × List String)) (c : String) :
    (l.filter (fun p => p.2.contains c && (p.2.erase c).isEmpty)).length
      + sum_deps (l.map (fun p => (p.1, p.2.erase c))) ≤ sum_deps l := by
  induction l with
  | nil => simp [sum_deps]
  | cons p t ih =>
      simp only [List.filter_cons, List.map_cons, sum_deps, List.sum_cons] at *
      by_cases hc : (p.2.contains c && (p.2.erase c).isEmpty) = true
      · simp only [hc, if_true, List.length_cons]
        have h1 : (p.2.erase c).length = 0 := by
          have := List.isEmpty_iff.mp (Bool.and_elim_right hc)
          simp [this]
        have h2 : 1 ≤ p.2.length := by
          have hmem : c ∈ p.2 := List.elem_iff.mp (Bool.and_elim_left hc)
          exact List.length_pos.mpr (List.ne_nil_of_mem hmem)
        omega
      · simp only [Bool.not_eq_true] at hc
        simp only [hc, Bool.false_eq_true, if_false]
        have h3 : (p.2.erase c).length ≤ p.2.length := (List.erase_sublist c p.2).length_le
        omega

def kahn_loop (incoming : List (String × List String)) (ready : List String)
    (result : List String) : List String :=
  if hr : ready.isEmpty then result
  else
    let current := ready.getLast (by simpa [List.isEmpty_iff] using hr)
    let rest := ready.dropLast
    let newly :=
      (incoming.filter
        (fun p => p.2.contains current && (p.2.erase current).isEmpty)).map Prod.fst
    kahn_loop (incoming.map (fun p => (p.1, p.2.erase current)))
      (rest ++ newly) (result ++ [current])
termination_by ready.length + sum_deps incoming
decreasing_by
  simp only [List.length_append, List.length_dropLast]
  have hk := kahn_measure incoming (ready.getLast (by simpa [List.isEmpty_iff] using hr))
  have hlen : 1 ≤ ready.length := by
    have : ready ≠ [] := by simpa [List.isEmpty_iff] using hr
    exact List.length_pos.mpr this
  simp only [List.length_map] at *
  omega

theorem dict_get_cons {α : Type} (p : String × α) (t : List (String × α)) (k : String) :
    dict_get (p :: t) k = if p.1 = k then some p.2 else dict_get t k := by
  unfold dict_get
  rw [List.find?_cons]
  by_cases h : p.1 = k
  · simp [h]
  · simp [h]

theorem dict_get_map {α β : Type} (l : List (String × α)) (f : α → β) (k : String) :
    dict_get (l.map (fun p => (p.1, f p.2))) k = (dict_get l k).map f := by
  induction l with
  | nil => rfl
  | cons p t ih =>
      simp only [List.map_cons, dict_get_cons]
      by_cases h : p.1 = k
      · simp [h]
      · simp [h, ih]

theorem dict_get_erase (l : List (String × List String)) (c : String) (k : String) :
    dict_get (l.map (fun p => (p.1, p.2.erase c))) k =
      (dict_get l k).map (fun v => v.erase c) :=
  dict_get_map l (fun v => v.erase c) k

theorem mem_keys_of_dict_get {α : Type} {l : List (String × α)} {k : String} {v : α}
    (h : dict_get l k = some v) : k ∈ l.map Prod.fst := by
  induction l with
  | nil => simp [dict_get] at h
  | cons p t ih =>
      rw [dict_get_cons] at h
      by_cases he : p.1 = k
      · simp [he.symm]
      · rw [if_neg he] at h
        simp [ih h]

theorem mem_map_fst_filter_iff {α : Type} {l : List (String × α)}
    (hk : (l.map Prod.fst).Nodup) (φ : String × α → Bool) (n : String) :
    n ∈ (l.filter φ).map Prod.fst ↔
      ∃ ds, dict_get l n = some ds ∧ φ (n, ds) = true := by
  induction l with
  | nil => simp [dict_get]
  | cons p t ih =>
      simp only [List.map_cons, List.nodup_cons] at hk
      obtain ⟨hp, ht⟩ := hk
      rw [List.filter_cons]
      by_cases hφ : φ p = true
      · simp only [hφ, if_true, List.map_cons, List.mem_cons, dict_get_cons]
        constructor
        · rintro (rfl | hmem)
          · exact ⟨p.2, by simp, by simpa using hφ⟩
          · obtain ⟨ds, hds, hφ2⟩ := (ih ht).mp hmem
            refine ⟨ds, ?_, hφ2⟩
            rw [if_neg ?_]
            · exact hds
            · intro he
              exact hp (he ▸ mem_keys_of_dict_get hds)
        · rintro ⟨ds, hds, hφ2⟩
          by_cases he : p.1 = n
          · exact Or.inl he.symm
          · rw [if_neg he] at hds
            exact Or.inr ((ih ht).mpr ⟨ds, hds, hφ2⟩)
      · simp only [Bool.not_eq_true] at hφ
        simp only [hφ, Bool.false_eq_true, if_false, dict_get_cons]
        by_cases he : p.1 = n
        · constructor
          · intro hmem
            have : n ∈ t.map Prod.fst :=
              List.Sublist.mem hmem ((List.filter_sublist t).map Prod.fst)
            exact absurd (he ▸ this) hp
          · rintro ⟨ds, hds, hφ2⟩
            rw [if_pos he] at hds
            have hds2 : p.2 = ds := by injection hds
            have hpn : (n, ds) = p := by
              rw [← he, ← hds2]
            rw [hpn, hφ] at hφ2
            exact absurd hφ2 (by simp)
        · rw [if_neg he]
          exact ih ht

theorem erase_eq_nil_cases {l : List String} {c : String} (h : l.erase c = []) :
    l = [] ∨ l = [c] := by
  cases l with
  | nil => exact Or.inl rfl
  | cons a t =>
      rw [List.erase_cons] at h
      by_cases ha : a = c
      · subst ha
        rw [if_pos (by simp)] at h
        subst h
        exact Or.inr rfl
      · rw [if_neg (by simpa using ha)] at h
        simp at h

def _toposort (names : List String) (deps : String → List String) : List String :=
  let incoming := names.map (fun n => (n, (deps n).filter (fun d => names.contains d)))
  let ready := (incoming.filter (fun p => p.2.isEmpty)).map Prod.fst
  let result := kahn_loop incoming ready []
  if result.length ≠ names.length then List.insertionSort (fun a b => a ≤ b) names
  else result

theorem kahn_loop_step (incoming : List (String × List String)) (ready : List String)
    (result : List String) (hne : ready ≠ []) :
    kahn_loop incoming ready result =
      kahn_loop (incoming.map (fun p => (p.1, p.2.erase (ready.getLast hne))))
        (ready.dropLast ++
          (incoming.filter (fun p =>
            p.2.contains (ready.getLast hne) &&
              (p.2.erase (ready.getLast hne)).isEmpty)).map Prod.fst)
        (result ++ [ready.getLast hne]) := by
  rw [kahn_loop]
  rw [dif_neg (by simpa [List.isEmpty_iff] using hne)]

theorem kahn_loop_invariant (names : List String) (hn : names.Nodup) :
    ∀ incoming ready result,
    incoming.map Prod.fst = names →
    (result ++ ready).Nodup →
    (∀ x, x ∈ result ++ ready → x ∈ names) →
    (∀ x ds, dict_get incoming x = some ds → ((x ∈ result ∨ x ∈ ready) ↔ ds = [])) →
    (kahn_loop incoming ready result).Nodup ∧
      ∀ x, x ∈ kahn_loop incoming ready result → x ∈ names := by
  intro incoming ready result
  induction incoming, ready, result using kahn_loop.induct with
  | case1 incoming ready result hre =>
      intro _hkeys hnd hsub _hI3
      rw [kahn_loop, dif_pos hre]
      have hre2 : ready = [] := List.isEmpty_iff.mp hre
      subst hre2
      simp only [List.append_nil] at hnd hsub
      exact ⟨hnd, hsub⟩
  | case2 incoming ready result hr cur0 rest0 newly0 ih =>
      intro hkeys hnd hsub hI3
      have hne : ready ≠ [] := by simpa [List.isEmpty_iff] using hr
      set current := ready.getLast hne with hcur
      set rest := ready.dropLast with hrest
      set newly := (incoming.filter (fun p =>
        p.2.contains current && (p.2.erase current).isEmpty)).map Prod.fst with hnew
      have hsplit : rest ++ [current] = ready := List.dropLast_append_getLast hne
      have hkn : (incoming.map Prod.fst).Nodup := hkeys ▸ hn
      have hnewly_mem : ∀ x, x ∈ newly ↔
          ∃ ds, dict_get incoming x = some ds ∧
            (ds.contains current && (ds.erase current).isEmpty) = true := by
        intro x
        rw [hnew]
        exact mem_map_fst_filter_iff hkn _ x
      have hnewly_sub : ∀ x, x ∈ newly → x ∈ names := by
        intro x hx
        obtain ⟨ds, hds, _⟩ := (hnewly_mem x).mp hx
        exact hkeys ▸ mem_keys_of_dict_get hds
      have hnewly_nodup : newly.Nodup := by
        rw [hnew]
        exact ((List.filter_sublist incoming).map Prod.fst).nodup hkn
      have hnewly_fresh : ∀ x, x ∈ newly → x ∉ result ∧ x ∉ ready := by
        intro x hx
        obtain ⟨ds, hds, hcond⟩ := (hnewly_mem x).mp hx
        have hdsne : ds ≠ [] := by
          intro hdse
          rw [hdse] at hcond
          simp at hcond
        have hiff := hI3 x ds hds
        refine ⟨fun hxr => hdsne (hiff.mp (Or.inl hxr)),
                fun hxr => hdsne (hiff.mp (Or.inr hxr))⟩
      have hcur_mem : current ∈ ready := List.getLast_mem hne
      -- the recursive call preserves every invariant
      rw [kahn_loop_step incoming ready result hne]
      rw [← hcur, ← hrest, ← hnew]
      apply ih
      · rw [List.map_map, ← hkeys]
        congr 1
      · have hp2 : (result ++ (([current] ++ rest) ++ newly)).Perm
            (result ++ ((rest ++ [current]) ++ newly)) :=
          List.Perm.append_left _
            (List.Perm.append_right _ List.perm_append_comm)
        have hperm : ((result ++ [current]) ++ (rest ++ newly)).Perm
            ((result ++ ready) ++ newly) := by
          have hp1 : (result ++ [current]) ++ (rest ++ newly) =
              result ++ (([current] ++ rest) ++ newly) := by
            simp [List.append_assoc]
          have hp3 : result ++ ((rest ++ [current]) ++ newly) =
              (result ++ ready) ++ newly := by
            rw [hsplit]
            simp [List.append_assoc]
          rw [hp1, ← hp3]
          exact hp2
        apply hperm.symm.nodup
        rw [List.nodup_append]
        refine ⟨hnd, hnewly_nodup, ?_⟩
        intro x hx hx2
        rcases List.mem_append.mp hx with hxa | hxb
        · exact (hnewly_fresh x hx2).1 hxa
        · exact (hnewly_fresh x hx2).2 hxb
      · intro x hx
        rcases List.mem_append.mp hx with hxa | hxb
        · rcases List.mem_append.mp hxa with hxc | hxd
          · exact hsub x (List.mem_append.mpr (Or.inl hxc))
          · have : x ∈ ready := by
              rw [← hsplit]
              exact List.mem_append.mpr (Or.inr hxd)
            exact hsub x (List.mem_append.mpr (Or.inr this))
        · rcases List.mem_append.mp hxb with hxc | hxd
          · have : x ∈ ready := by
              rw [← hsplit]
              exact List.mem_append.mpr (Or.inl hxc)
            exact hsub x (List.mem_append.mpr (Or.inr this))
          · exact hnewly_sub x hxd
      · intro x ds2 hds2
        rw [dict_get_erase] at hds2
        obtain ⟨ds, hds, hmap⟩ : ∃ ds, dict_get incoming x = some ds ∧
            ds2 = ds.erase current := by
          cases hd : dict_get incoming x with
          | none => rw [hd] at hds2; simp at hds2
          | some v =>
              rw [hd] at hds2
              exact ⟨v, rfl, (Option.some.inj hds2).symm⟩
        subst hmap
        have hmemready : x ∈ rest ∨ x = current → x ∈ ready := by
          intro hx
          rw [← hsplit]
          rcases hx with hx | hx
          · exact List.mem_append.mpr (Or.inl hx)
          · exact List.mem_append.mpr (Or.inr (by simp [hx]))
        constructor
        · intro hx
          rcases hx with hx | hx
          · rcases List.mem_append.mp hx with hxr | hxc
            · have : ds = [] := (hI3 x ds hds).mp (Or.inl hxr)
              simp [this]
            · have : ds = [] := (hI3 x ds hds).mp
                (Or.inr (hmemready (Or.inr (by simpa using hxc))))
              simp [this]
          · rcases List.mem_append.mp hx with hxr | hxn
            · have : ds = [] := (hI3 x ds hds).mp (Or.inr (hmemready (Or.inl hxr)))
              simp [this]
            · obtain ⟨ds0, hds0, hcond⟩ := (hnewly_mem x).mp hxn
              rw [hds] at hds0
              have : ds = ds0 := by injection hds0
              subst this
              exact List.isEmpty_iff.mp (Bool.and_elim_right hcond)
        · intro herz
          by_cases hin : x ∈ result ∨ x ∈ ready
          · rcases hin with hx | hx
            · exact Or.inl (List.mem_append.mpr (Or.inl hx))
            · rw [← hsplit] at hx
              rcases List.mem_append.mp hx with hxr | hxc
              · exact Or.inr (List.mem_append.mpr (Or.inl hxr))
              · exact Or.inl (List.mem_append.mpr (Or.inr hxc))
          · rcases erase_eq_nil_cases herz with hcase | hcase
            · exact absurd ((hI3 x ds hds).mpr hcase) hin
            · have hxn : x ∈ newly := by
                refine (hnewly_mem x).mpr ⟨ds, hds, ?_⟩
                rw [hcase]
                simp
              exact Or.inr (List.mem_append.mpr (Or.inr hxn))

theorem toposort_perm (names : List String) (deps : String → List String)
    (hn : names.Nodup) : (_toposort names deps).Perm names := by
  have hdef : _toposort names deps =
      (if (kahn_loop
            (names.map (fun n => (n, (deps n).filter (fun d => names.contains d))))
            ((names.map (fun n =>
              (n, (deps n).filter (fun d => names.contains d)))).filter
                (fun p => p.2.isEmpty) |>.map Prod.fst) []).length ≠ names.length
       then List.insertionSort (fun a b => a ≤ b) names
       else kahn_loop
            (names.map (fun n => (n, (deps n).filter (fun d => names.contains d))))
            ((names.map (fun n =>
              (n, (deps n).filter (fun d => names.contains d)))).filter
                (fun p => p.2.isEmpty) |>.map Prod.fst) []) := rfl
  rw [hdef]
  set incoming := names.map
    (fun n => (n, (deps n).filter (fun d => names.contains d))) with hinc
  set ready := (incoming.filter (fun p => p.2.isEmpty)).map Prod.fst with hready
  have hkeys : incoming.map Prod.fst = names := by
    rw [hinc, List.map_map]
    have hfid : (Prod.fst ∘ fun n : String =>
        (n, (deps n).filter (fun d => names.contains d))) = fun n => n := by
      funext n
      rfl
    rw [hfid, List.map_id']
  have hkn : (incoming.map Prod.fst).Nodup := hkeys ▸ hn
  have hready_nodup : ready.Nodup :=
    ((List.filter_sublist incoming).map Prod.fst).nodup hkn
  have hready_mem : ∀ x, x ∈ ready ↔
      ∃ ds, dict_get incoming x = some ds ∧ ds.isEmpty = true := by
    intro x
    rw [hready]
    exact mem_map_fst_filter_iff hkn _ x
  have hready_sub : ∀ x, x ∈ ready → x ∈ names := by
    intro x hx
    obtain ⟨ds, hds, _⟩ := (hready_mem x).mp hx
    exact hkeys ▸ mem_keys_of_dict_get hds
  have hinv := kahn_loop_invariant names hn incoming ready []
    hkeys (by simpa using hready_nodup) (by simpa using hready_sub)
    (by
      intro x ds hds
      simp only [List.not_mem_nil, false_or]
      constructor
      · intro hx
        obtain ⟨ds0, hds0, hemp⟩ := (hready_mem x).mp hx
        rw [hds] at hds0
        have hde : ds = ds0 := by injection hds0
        rw [hde]
        exact List.isEmpty_iff.mp hemp
      · intro hds_nil
        refine (hready_mem x).mpr ⟨ds, hds, ?_⟩
        rw [hds_nil]
        rfl)
  by_cases hlen : (kahn_loop incoming ready []).length ≠ names.length
  · rw [if_pos hlen]
    exact List.perm_insertionSort _ names
  · rw [if_neg hlen]
    push_neg at hlen
    have hsp : (kahn_loop incoming ready []).Subperm names :=
      List.subperm_of_subset hinv.1 (fun x hx => hinv.2 x hx)
    exact hsp.perm_of_length_le (by omega)

/-! ### Settings (config.py) — the fields consumed by the claims -/

structure Settings where
  update_label : String := "guerite.update"
  restart_label : String := "guerite.restart"
  recreate_label : String := "guerite.recreate"
  health_label : String := "guerite.health_check"
  prune_cron : Option String := none
  health_backoff_seconds : Nat := 300
  restart_retry_limit : Nat := 3

/-! ### Cron handling (monitor.py lines 439-459, 740-779, 2484-2527)

The croniter library is an external dependency; it enters the embedding
as two oracles.  `cron_match expr t` is `croniter.match(expr, t)`:
`some b` when the expression parses, `none` when croniter raises
`ValueError`/`KeyError` (the code catches those and treats the slot as
never due).  `cron_next expr t` is `croniter(expr, t).get_next()` with
the same error convention.  Python `str.strip` and the `[1:-1]` slices
are modelled character-wise so that Lean can evaluate them. -/

def py_strip (s : String) : String :=
  String.mk
    (((s.data.dropWhile Char.isWhitespace).reverse.dropWhile
      Char.isWhitespace).reverse)

def starts_with_char (s : String) (c : Char) : Bool := s.data.head? = some c

def ends_with_char (s : String) (c : Char) : Bool := s.data.getLast? = some c

def drop_first_last (s : String) : String := String.mk (s.data.drop 1).dropLast

def _clean_cron_expression (value : Option String) : Option String :=
  match value with
  | none => none
  | some v =>
      let cleaned := py_strip v
      let cleaned :=
        if starts_with_char cleaned '[' && ends_with_char cleaned ']' then
          py_strip (drop_first_last cleaned)
        else cleaned
      let cleaned :=
        if (starts_with_char cleaned '"' && ends_with_char cleaned '"') ||
           (starts_with_char cleaned '\x27' && ends_with_char cleaned '\x27') then
          py_strip (drop_first_last cleaned)
        else cleaned
      if cleaned.data.isEmpty then none else some cleaned

/-- The `_cron_matches` check: the label value is handed to croniter verbatim, with
no cleaning; a missing label or a parse error yields `false`. -/
def _cron_matches (cron_match : String → Int → Option Bool)
    (labels : String → Option String) (label_key : String)
    (timestamp : Int) : Bool :=
  match labels label_key with
  | none => false
  | some cron_expression =>
      match cron_match cron_expression timestamp with
      | none => false
      | some allowed => allowed

/-- The `_prune_due` check: the prune cron is cleaned before parsing.  The
`_PRUNE_CRON_INVALID` memo only caches a previous parse failure and is
omitted: with a fixed oracle the parse outcome never changes. -/
def _prune_due (cron_match : String → Int → Option Bool)
    (settings : Settings) (timestamp : Int) : Bool :=
  match _clean_cron_expression settings.prune_cron with
  | none => false
  | some cron_expression =>
      match cron_match cron_expression timestamp with
      | none => false
      | some b => b

def next_prune_time (cron_next : String → Int → Option Int)
    (settings : Settings) (reference : Int) : Option Int :=
  match _clean_cron_expression settings.prune_cron with
  | none => none
  | some cron_expression => cron_next cron_expression reference

/-- The per-container label view consumed by the scheduler. -/
structure ContainerInfo where
  name : String
  labels : String → Option String

/-- The candidate list built by `next_wakeup`: one entry per container ×
schedule label whose expression croniter accepts. -/
def wakeup_candidates (cron_next : String → Int → Option Int)
    (containers : List ContainerInfo) (settings : Settings)
    (reference : Int) : List (Int × Option String × Option String) :=
  containers.flatMap (fun c =>
    [settings.update_label, settings.restart_label,
     settings.recreate_label, settings.health_label].filterMap
      (fun label_key =>
        match c.labels label_key with
        | none => none
        | some cron_expression =>
            match cron_next cron_expression reference with
            | none => none
            | some next_time => some (next_time, some c.name, some label_key)))

/-- The scheduler entry point `next_wakeup` (monitor.py lines 2484-2527).
`min(candidates, key=first)`
returns the first entry with minimal first component. -/
def next_wakeup (cron_next : String → Int → Option Int)
    (containers : List ContainerInfo) (settings : Settings)
    (reference : Int) : Int × Option String × Option String :=
  match wakeup_candidates cron_next containers settings reference with
  | [] => (reference + 300, none, none)
  | c :: rest => rest.foldl (fun best cand => if cand.1 < best.1 then cand else best) c

theorem foldl_min_le (rest : List (Int × Option String × Option String)) :
    ∀ c : Int × Option String × Option String, ∀ x ∈ c :: rest,
      (rest.foldl (fun best cand => if cand.1 < best.1 then cand else best) c).1 ≤ x.1 := by
  induction rest with
  | nil =>
      intro c x hx
      simp only [List.mem_cons, List.not_mem_nil, or_false] at hx
      subst hx
      simp [List.foldl]
  | cons d t ih =>
      intro c x hx
      simp only [List.foldl_cons]
      rcases List.mem_cons.mp hx with rfl | hx2
      · have hc := ih (if d.1 < x.1 then d else x)
          (if d.1 < x.1 then d else x) (List.mem_cons_self _ _)
        by_cases hd : d.1 < x.1
        · simp only [if_pos hd] at hc ⊢
          omega
        · simp only [if_neg hd] at hc ⊢
          exact hc
      · rcases List.mem_cons.mp hx2 with rfl | hx3
        · have hc := ih (if x.1 < c.1 then x else c)
            (if x.1 < c.1 then x else c) (List.mem_cons_self _ _)
          by_cases hd : x.1 < c.1
          · simp only [if_pos hd] at hc ⊢
            exact hc
          · simp only [if_neg hd] at hc ⊢
            omega
        · exact ih _ x (List.mem_cons.mpr (Or.inr hx3))

/-! ### Back-off bookkeeping (monitor.py lines 541-576 and 640-669) -/

def _health_allowed (health_backoff : List (String × Int))
    (container_id : String) (now : Int) : Bool :=
  match dict_get health_backoff container_id with
  | none => true
  | some next_time => decide (now ≥ next_time)

def _restart_allowed (restart_backoff : List (String × Int))
    (container_id : String) (now : Int) : Bool :=
  match dict_get restart_backoff container_id with
  | none => true
  | some next_time => decide (now ≥ next_time)

/-- The `_register_restart_failure` bookkeeping: increments the fail count, computes the
delay, and stores `now + delay` in the restart back-off map.  Returns the
updated `(fail_count, restart_backoff)` pair. -/
def _register_restart_failure (fail_count : List (String × Nat))
    (restart_backoff : List (String × Int)) (container_id : String)
    (now : Int) (settings : Settings) :
    List (String × Nat) × List (String × Int) :=
  let fc := (dict_get fail_count container_id).getD 0 + 1
  let fail_count2 := dict_set fail_count container_id fc
  let backoff_seconds := min (settings.health_backoff_seconds * max 1 fc) 3600
  let backoff_seconds2 :=
    if fc ≥ settings.restart_retry_limit then
      max backoff_seconds
        (settings.health_backoff_seconds * settings.restart_retry_limit)
    else backoff_seconds
  (fail_count2,
   dict_set restart_backoff container_id (now + (backoff_seconds2 : Int)))

/-- The back-off delay exactly as the claim states it, split on
`n < restart_retry_limit`. -/
def spec_backoff_delay (hb limit n : Nat) : Nat :=
  if n < limit then min (hb * max 1 n) 3600
  else max (min (hb * n) 3600) (hb * limit)

/-! ### Blue/green recreate (monitor.py `restart_container`, lines
1654-1906, and `_rollback_container_recreation`, lines 1418-1516)

Engine calls are recorded as trace events carrying the engine's reported
outcome; the `EngineOracle` fixes those outcomes.  Logging,
notifications, lifecycle hooks (`_run_lifecycle_hook` swallows every
exception, lines 898-933) and upgrade-state tracking are omitted: none
of them alters the control flow of the protocol. -/

inductive RecreateEv where
  | rename_old (ok : Bool)
  | create_new (ok : Bool)
  | stop_old (ok : Bool)
  | attach_networks (ok : Bool)
  | start_new (ok : Bool)
  | health_wait (ok : Bool)
  | promote (ok : Bool)
  | remove_old (ok : Bool)
  | rollback_begin
  | rb_rename_new_to_temp (ok : Bool)
  | rb_remove_new (ok : Bool)
  | rb_rename_new_to_failed (ok : Bool)
  | rb_remove_new_retry (ok : Bool)
  | rb_rename_old_to_base (ok : Bool)
  | rb_start_old (ok : Bool)
deriving DecidableEq

structure EngineOracle where
  rename_old_ok : Bool := true
  create_ok : Bool := true
  created_id : Option String := some "feedc0de"
  stop_ok : Bool := true
  networks_with_mac : Bool := false
  attach_ok : Bool := true
  start_ok : Bool := true
  has_healthcheck : Bool := false
  health_wait_healthy : Bool := true
  promote_ok : Bool := true
  remove_old_ok : Bool := true
  rb_rename_temp_ok : Bool := true
  rb_remove_ok : Bool := true
  rb_rename_failed_ok : Bool := true
  rb_remove_retry_ok : Bool := true
  rb_rename_old_ok : Bool := true
  rb_start_old_ok : Bool := true

structure ContainerRecreateState where
  old_renamed : Bool := false
  new_id : Option String := none
  old_stopped : Bool := false
  new_renamed_to_production : Bool := false
  original_name : Option String := none
  temp_old_name : Option String := none
  temp_new_name : Option String := none

/-- Python truthiness of an optional string: `None` and `""` are falsy. -/
def py_truthy_str (o : Option String) : Bool :=
  match o with
  | none => false
  | some s => !s.data.isEmpty

/-- Step 2 of the rollback: restore the old container.  A rename failure
marks the rollback failed; a start failure after a successful rename does
not. -/
def rollback_restore_old (o : EngineOracle) (state : ContainerRecreateState)
    (container_id : String) (success : Bool) (tr : List RecreateEv) :
    Bool × List RecreateEv :=
  if state.old_renamed && py_truthy_str state.original_name &&
      !container_id.data.isEmpty then
    if o.rb_rename_old_ok then
      (success, tr ++ [RecreateEv.rb_rename_old_to_base true,
                       RecreateEv.rb_start_old o.rb_start_old_ok])
    else (false, tr ++ [RecreateEv.rb_rename_old_to_base false])
  else (success, tr)

/-- The rollback `_rollback_container_recreation`: remove the new container first
(renaming it away from the production name, or to a `-guerite-failed-`
name, as fallbacks), then restore the old container. -/
def _rollback_container_recreation (o : EngineOracle)
    (state : ContainerRecreateState) (container_id : String) :
    Bool × List RecreateEv :=
  match state.new_id with
  | none => rollback_restore_old o state container_id true []
  | some _ =>
      let tr0 :=
        if state.new_renamed_to_production && py_truthy_str state.temp_new_name
        then [RecreateEv.rb_rename_new_to_temp o.rb_rename_temp_ok]
        else []
      if o.rb_remove_ok then
        rollback_restore_old o state container_id true
          (tr0 ++ [RecreateEv.rb_remove_new true])
      else
        let tr1 := tr0 ++ [RecreateEv.rb_remove_new false]
        if py_truthy_str state.original_name then
          if o.rb_rename_failed_ok then
            if o.rb_remove_retry_ok then
              rollback_restore_old o state container_id true
                (tr1 ++ [RecreateEv.rb_rename_new_to_failed true,
                         RecreateEv.rb_remove_new_retry true])
            else
              rollback_restore_old o state container_id false
                (tr1 ++ [RecreateEv.rb_rename_new_to_failed true,
                         RecreateEv.rb_remove_new_retry false])
          else
            rollback_restore_old o state container_id false
              (tr1 ++ [RecreateEv.rb_rename_new_to_failed false])
        else rollback_restore_old o state container_id false tr1

structure RecreateResult where
  success : Bool
  trace : List RecreateEv
  fail_count : List (String × Nat)
  restart_backoff : List (String × Int)

/-- The shared failure exit of `restart_container`: run the rollback,
then register the restart failure for back-off. -/
def recreate_fail (o : EngineOracle) (state : ContainerRecreateState)
    (container_id : String) (now : Int) (settings : Settings)
    (fail_count : List (String × Nat)) (restart_backoff : List (String × Int))
    (tr : List RecreateEv) : RecreateResult :=
  let rb := _rollback_container_recreation o state container_id
  let maps := _register_restart_failure fail_count restart_backoff
    container_id now settings
  { success := false,
    trace := tr ++ RecreateEv.rollback_begin :: rb.2,
    fail_count := maps.1,
    restart_backoff := maps.2 }

def restart_container (o : EngineOracle) (name : String)
    (container_id : String) (settings : Settings) (now : Int)
    (fail_count : List (String × Nat))
    (restart_backoff : List (String × Int)) : RecreateResult :=
  if container_id.data.isEmpty then
    { success := false, trace := [],
      fail_count := fail_count, restart_backoff := restart_backoff }
  else
    let base_name := strip_guerite_suffix name
    let short_suffix := String.mk (container_id.data.take 8)
    let state0 : ContainerRecreateState :=
      { original_name := some base_name,
        temp_old_name := some (base_name ++ "-guerite-old-" ++ short_suffix),
        temp_new_name := some (base_name ++ "-guerite-new-" ++ short_suffix) }
    if !o.rename_old_ok then
      recreate_fail o state0 container_id now settings fail_count
        restart_backoff [RecreateEv.rename_old false]
    else
      let state1 := { state0 with old_renamed := true }
      let tr1 := [RecreateEv.rename_old true]
      if !o.create_ok then
        recreate_fail o state1 container_id now settings fail_count
          restart_backoff (tr1 ++ [RecreateEv.create_new false])
      else
        match o.created_id with
        | none =>
            recreate_fail o state1 container_id now settings fail_count
              restart_backoff (tr1 ++ [RecreateEv.create_new true])
        | some nid =>
            let state2 := { state1 with new_id := some nid }
            let tr2 := tr1 ++ [RecreateEv.create_new true]
            let state3 :=
              if o.stop_ok then { state2 with old_stopped := true } else state2
            let tr3 := tr2 ++ [RecreateEv.stop_old o.stop_ok]
            if o.networks_with_mac && !o.attach_ok then
              recreate_fail o state3 container_id now settings fail_count
                restart_backoff (tr3 ++ [RecreateEv.attach_networks false])
            else
              let tr4 :=
                if o.networks_with_mac then
                  tr3 ++ [RecreateEv.attach_networks true]
                else tr3
              if !o.start_ok then
                recreate_fail o state3 container_id now settings fail_count
                  restart_backoff (tr4 ++ [RecreateEv.start_new false])
              else
                let tr5 := tr4 ++ [RecreateEv.start_new true]
                if o.has_healthcheck && !o.health_wait_healthy then
                  recreate_fail o state3 container_id now settings fail_count
                    restart_backoff (tr5 ++ [RecreateEv.health_wait false])
                else
                  let tr6 :=
                    if o.has_healthcheck then
                      tr5 ++ [RecreateEv.health_wait true]
                    else tr5
                  if !o.promote_ok then
                    recreate_fail o state3 container_id now settings fail_count
                      restart_backoff (tr6 ++ [RecreateEv.promote false])
                  else
                    { success := true,
                      trace := tr6 ++ [RecreateEv.promote true,
                                       RecreateEv.remove_old o.remove_old_ok],
                      fail_count := dict_pop fail_count container_id,
                      restart_backoff := dict_pop restart_backoff container_id }

/-! ### The per-container action decision of `run_once` (monitor.py lines
2149-2461)

The cron-match results, the container's inspected condition and the
engine outcomes enter as fields of `TickInput`; the module-level back-off
maps as `TickState`.  `update_available` stands for "pull succeeded and
the pulled digest differs" (false under `no_pull` or a pull failure);
`update_succeeds` is the outcome of the update's `restart_container`
call.  The result is the list of engine-level actions executed for the
container during the tick, in order. -/

structure TickState where
  restart_fail_count : List (String × Nat) := []
  restart_backoff : List (String × Int) := []
  health_backoff : List (String × Int) := []

structure TickInput where
  container_id : String := "feedc0de"
  update_due : Bool := false
  restart_due : Bool := false
  recreate_due : Bool := false
  health_due_raw : Bool := false
  swarm_managed : Bool := false
  has_healthcheck : Bool := false
  recently_started : Bool := false
  is_unhealthy : Bool := false
  image_ref_present : Bool := true
  update_available : Bool := false
  update_succeeds : Bool := true
  dry_run : Bool := false
  no_restart : Bool := false
  now : Int := 0

inductive TickAction where
  | update
  | recreate
  | restart
  | health
deriving DecidableEq

def update_attempted_flag (c : TickInput) : Bool :=
  c.update_due && c.update_available && !c.dry_run && !c.no_restart

/-- A failed update recreate registers a restart failure (monitor.py line
1893) before the later branches of the same tick consult the restart
back-off map; this is the map those branches see. -/
def restart_backoff_after_update (st : TickState) (settings : Settings)
    (c : TickInput) : List (String × Int) :=
  if update_attempted_flag c && !c.update_succeeds then
    (_register_restart_failure st.restart_fail_count st.restart_backoff
      c.container_id c.now settings).2
  else st.restart_backoff

/-- The `health_due` flag after the no-healthcheck demotion (line 2168). -/
def health_due_flag (c : TickInput) : Bool :=
  c.health_due_raw && c.has_healthcheck

/-- The `recently_started` flag (lines 2177-2181): computed only when the health
slot is live. -/
def recently_started_flag (c : TickInput) : Bool :=
  health_due_flag c && c.recently_started

/-- The `unhealthy_now` flag (line 2182). -/
def unhealthy_now_flag (c : TickInput) : Bool :=
  health_due_flag c && !recently_started_flag c && c.is_unhealthy

/-- The actions emitted by the update branch (`[update]` exactly when the
update recreate was invoked). -/
def update_acc (c : TickInput) : List TickAction :=
  if update_attempted_flag c then [TickAction.update] else []

/-- The branch structure of the per-container body, with the two
back-off gates (`_health_allowed`, line 2346, and `_restart_allowed`,
lines 2290 and 2390) passed in as the booleans they evaluate to. -/
def run_once_decision (c : TickInput)
    (health_allowed restart_allowed1 : Bool) : List TickAction :=
  if (c.update_due || c.recreate_due || c.health_due_raw) && c.swarm_managed
  then []
  else if !(c.update_due || c.restart_due || c.recreate_due ||
      unhealthy_now_flag c) then []
  else if !c.image_ref_present then []
  else if update_attempted_flag c && c.update_succeeds then update_acc c
  else if c.recreate_due && !unhealthy_now_flag c then
    (if !restart_allowed1 then update_acc c
     else if c.dry_run then update_acc c
     else if c.no_restart then update_acc c
     else update_acc c ++ [TickAction.recreate])
  else if unhealthy_now_flag c && !health_allowed then update_acc c
  else if health_due_flag c && recently_started_flag c then update_acc c
  else if c.restart_due && !unhealthy_now_flag c then
    (if c.dry_run then update_acc c
     else if c.no_restart then update_acc c
     else update_acc c ++ [TickAction.restart])
  else if unhealthy_now_flag c then
    (if !restart_allowed1 then update_acc c
     else if c.dry_run then update_acc c
     else if c.no_restart then update_acc c
     else update_acc c ++ [TickAction.health])
  else update_acc c

def run_once_actions (st : TickState) (settings : Settings)
    (c : TickInput) : List TickAction :=
  run_once_decision c
    (_health_allowed st.health_backoff c.container_id c.now)
    (_restart_allowed (restart_backoff_after_update st settings c)
      c.container_id c.now)

theorem dict_get_set_self {α : Type} (m : List (String × α)) (k : String) (v : α) :
    dict_get (dict_set m k v) k = some v := by
  unfold dict_set
  induction m with
  | nil => simp [dict_get]
  | cons p t ih =>
      rw [List.filter_cons]
      by_cases h : p.1 = k
      · rw [if_neg (by simp [h])]
        exact ih
      · rw [if_pos (by simp [h])]
        rw [List.cons_append, dict_get_cons, if_neg h]
        exact ih

theorem dict_get_pop_self {α : Type} (m : List (String × α)) (k : String) :
    dict_get (dict_pop m k) k = none := by
  unfold dict_pop
  induction m with
  | nil => rfl
  | cons p t ih =>
      rw [List.filter_cons]
      by_cases h : p.1 = k
      · rw [if_neg (by simp [h])]
        exact ih
      · rw [if_pos (by simp [h])]
        rw [dict_get_cons, if_neg h]
        exact ih

end Guerite

open Guerite

/-- C7: for every string `s`, the base-name derivation is idempotent:
`base_name(base_name(s)) = base_name(s)`, where the derivation strips
trailing `-guerite-old-<8 hex>` / `-guerite-new-<8 hex>` suffixes
repeatedly until the string is stable. -/
theorem claim_C7_theorem (s : String) :
    strip_guerite_suffix (strip_guerite_suffix s) = strip_guerite_suffix s :=
  congrArg String.mk (strip_guerite_suffix_chars_idem s.data)

/-- C10: for every (duplicate-free) name set and dependency map,
`_toposort` returns a permutation of the input names — a topological
order when the sort consumes every node, the sorted name list otherwise;
no name is dropped or duplicated. -/
theorem claim_C10_theorem (names : List String) (deps : String → List String)
    (hn : names.Nodup) : (_toposort names deps).Perm names :=
  toposort_perm names deps hn

theorem claim_C10_witness :
    (["app", "db", "worker"].Nodup) ∧
      (_toposort ["app", "db", "worker"]
        (fun n => if n = "app" then ["db"] else [])).Perm
        ["app", "db", "worker"] :=
  ⟨by decide, claim_C10_theorem ["app", "db", "worker"]
    (fun n => if n = "app" then ["db"] else []) (by decide)⟩

/-- C5: registering a restart failure with post-increment fail count `n`
stores `restart_backoff[id] = now + delay` where `delay` is
`min(health_backoff * max(1, n), 3600)` for `n < restart_retry_limit` and
`max(min(health_backoff * n, 3600), health_backoff * restart_retry_limit)`
otherwise; the fail-count entry becomes `n`. -/
theorem claim_C5_theorem (settings : Settings)
    (fail_count : List (String × Nat)) (restart_backoff : List (String × Int))
    (container_id : String) (now : Int) :
    dict_get (_register_restart_failure fail_count restart_backoff
        container_id now settings).2 container_id =
      some (now + ((spec_backoff_delay settings.health_backoff_seconds
        settings.restart_retry_limit
        ((dict_get fail_count container_id).getD 0 + 1) : Nat) : Int)) ∧
    dict_get (_register_restart_failure fail_count restart_backoff
        container_id now settings).1 container_id =
      some ((dict_get fail_count container_id).getD 0 + 1) := by
  unfold _register_restart_failure spec_backoff_delay
  set n := (dict_get fail_count container_id).getD 0 + 1 with hne
  have hn : 1 ≤ n := by omega
  have hmax : max 1 n = n := Nat.max_eq_right hn
  constructor
  · rw [dict_get_set_self]
    by_cases hlt : n < settings.restart_retry_limit
    · rw [if_pos hlt, if_neg (by omega), hmax]
    · rw [if_neg hlt, if_pos (by omega), hmax]
  · rw [dict_get_set_self]

theorem tick_ite_len (p : Prop) [Decidable p] (A B : List TickAction)
    (hA : A.length ≤ 1) (hB : B.length ≤ 1) :
    (if p then A else B).length ≤ 1 := by
  split
  · exact hA
  · exact hB

theorem health_not_mem_update_acc (c : TickInput) :
    TickAction.health ∉ update_acc c := by
  unfold update_acc
  split_ifs <;> simp

set_option maxHeartbeats 2000000 in
theorem health_not_mem_decision_of_blocked (c : TickInput) (ra : Bool) :
    TickAction.health ∉ run_once_decision c false ra := by
  unfold run_once_decision
  simp only [Bool.not_false, Bool.and_true]
  split_ifs <;>
    first
      | exact List.not_mem_nil _
      | exact health_not_mem_update_acc c
      | (intro hmem
         rcases List.mem_append.mp hmem with hmem2 | hmem2
         · exact health_not_mem_update_acc c hmem2
         · simp at hmem2)

/-- C6: a stored health back-off instant strictly later than `now` makes
`_health_allowed` return false and keeps the tick from executing the
health-remediation recreate for that container; an instant at or before
`now`, or no entry at all, permits the attempt. -/
theorem claim_C6_theorem :
    (∀ (health_backoff : List (String × Int)) (container_id : String)
        (now t : Int), dict_get health_backoff container_id = some t →
        t > now → _health_allowed health_backoff container_id now = false) ∧
    (∀ (st : TickState) (settings : Settings) (c : TickInput) (t : Int),
        dict_get st.health_backoff c.container_id = some t → t > c.now →
        TickAction.health ∉ run_once_actions st settings c) ∧
    (∀ (health_backoff : List (String × Int)) (container_id : String)
        (now t : Int), dict_get health_backoff container_id = some t →
        t ≤ now → _health_allowed health_backoff container_id now = true) ∧
    (∀ (health_backoff : List (String × Int)) (container_id : String)
        (now : Int), dict_get health_backoff container_id = none →
        _health_allowed health_backoff container_id now = true) := by
  have hblocked : ∀ (health_backoff : List (String × Int))
      (container_id : String) (now t : Int),
      dict_get health_backoff container_id = some t → t > now →
      _health_allowed health_backoff container_id now = false := by
    intro hb id now t hget hgt
    unfold _health_allowed
    rw [hget]
    simp only [decide_eq_false_iff_not]
    omega
  refine ⟨hblocked, ?_, ?_, ?_⟩
  · intro st settings c t hget hgt
    have hfalse : _health_allowed st.health_backoff c.container_id c.now = false :=
      hblocked st.health_backoff c.container_id c.now t hget hgt
    unfold run_once_actions
    rw [hfalse]
    exact health_not_mem_decision_of_blocked c _
  · intro hb id now t hget hle
    unfold _health_allowed
    rw [hget]
    simp only [decide_eq_true_eq]
    omega
  · intro hb id now hget
    unfold _health_allowed
    rw [hget]

theorem claim_C6_witness :
    (dict_get [("cafe0001", (5 : Int))] "cafe0001" = some 5 ∧ (5 : Int) > 0 ∧
      _health_allowed [("cafe0001", 5)] "cafe0001" 0 = false) ∧
    (TickAction.health ∉ run_once_actions
      { health_backoff := [("cafe0001", 5)] } {}
      { container_id := "cafe0001", health_due_raw := true,
        has_healthcheck := true, is_unhealthy := true, now := 0 }) ∧
    (_health_allowed [("cafe0001", 5)] "cafe0001" 7 = true) ∧
    (_health_allowed [] "cafe0001" 0 = true) :=
  ⟨⟨by decide, by decide,
    claim_C6_theorem.1 [("cafe0001", 5)] "cafe0001" 0 5 (by decide) (by decide)⟩,
   claim_C6_theorem.2.1 { health_backoff := [("cafe0001", 5)] } {}
     { container_id := "cafe0001", health_due_raw := true,
       has_healthcheck := true, is_unhealthy := true, now := 0 } 5
     (by decide) (by decide),
   claim_C6_theorem.2.2.1 [("cafe0001", 5)] "cafe0001" 7 5 (by decide) (by decide),
   claim_C6_theorem.2.2.2 [] "cafe0001" 0 (by decide)⟩

def c1_input : TickInput :=
  { container_id := "cafe0001", restart_due := true, health_due_raw := true,
    has_healthcheck := true, is_unhealthy := true }

def c1_input2 : TickInput :=
  { container_id := "cafe0002", update_due := true, update_available := true,
    update_succeeds := false, restart_due := true }

def c1_input3 : TickInput :=
  { container_id := "cafe0003", update_due := true }

/-- C1 counterexample: the spec's priority sentence fails twice.  A
container with a scheduled restart due that is also unhealthy with
health-remediation due (no update or recreate fired, no back-off) gets
the health-triggered recreate, not the scheduled in-place restart —
`run_once` guards both the recreate and the restart branch with
`not unhealthy_now` (monitor.py lines 2289 and 2353).  And "exactly one
action" fails as well: a due update whose recreate fails falls through
to the scheduled restart, executing two actions in one tick, while a due
update whose pull finds no new digest executes none. -/
theorem claim_C1_counterexample :
    (run_once_actions {} {} c1_input = [TickAction.health] ∧
      TickAction.restart ∉ run_once_actions {} {} c1_input) ∧
    run_once_actions {} {} c1_input2 = [TickAction.update, TickAction.restart] ∧
    run_once_actions {} {} c1_input3 = [] := by
  decide

/-- C1 amended: per processed container (not Swarm-managed, image
reference present, dry-run and no-restart off) at most one of the four
actions executes whenever any attempted update succeeds; with the
restart and health back-off gates open, the executed action follows the
priority order update (new digest pulled and its recreate succeeds)
first, then scheduled recreate, then scheduled restart (outside the
just-started health grace window), then health-remediation — except that
for a container that is unhealthy with health-remediation due, the
scheduled recreate and the scheduled restart are both suppressed and the
health-triggered recreate is the action executed; in particular, when
both a scheduled restart is due and the container is unhealthy with
health-remediation due (and no update or recreate fired), the
health-triggered recreate is the action executed, not the scheduled
in-place restart. -/
theorem claim_C1_amended :
    (∀ (st : TickState) (settings : Settings) (c : TickInput),
      c.update_succeeds = true →
      (run_once_actions st settings c).length ≤ 1) ∧
    (∀ (st : TickState) (settings : Settings) (c : TickInput),
      c.swarm_managed = false → c.image_ref_present = true →
      c.dry_run = false → c.no_restart = false →
      _health_allowed st.health_backoff c.container_id c.now = true →
      _restart_allowed st.restart_backoff c.container_id c.now = true →
      ((c.update_due = true → c.update_available = true →
          c.update_succeeds = true →
          run_once_actions st settings c = [TickAction.update]) ∧
       (¬(c.update_due = true ∧ c.update_available = true) →
          c.recreate_due = true → unhealthy_now_flag c = false →
          run_once_actions st settings c = [TickAction.recreate]) ∧
       (¬(c.update_due = true ∧ c.update_available = true) →
          c.recreate_due = false → c.restart_due = true →
          unhealthy_now_flag c = false → recently_started_flag c = false →
          run_once_actions st settings c = [TickAction.restart]) ∧
       (¬(c.update_due = true ∧ c.update_available = true) →
          unhealthy_now_flag c = true →
          run_once_actions st settings c = [TickAction.health]))) := by
  constructor
  · intro st settings c hus
    unfold run_once_actions
    generalize _health_allowed st.health_backoff c.container_id c.now = ha
    generalize _restart_allowed (restart_backoff_after_update st settings c)
      c.container_id c.now = ra
    unfold run_once_decision
    by_cases hatt : update_attempted_flag c = true
    · have hacc : update_acc c = [TickAction.update] := by
        unfold update_acc
        rw [if_pos hatt]
      have hc4 : (update_attempted_flag c && c.update_succeeds) = true := by
        rw [hatt, hus, Bool.and_self]
      rw [hacc, hc4]
      refine tick_ite_len _ _ _ (by simp) ?_
      refine tick_ite_len _ _ _ (by simp) ?_
      refine tick_ite_len _ _ _ (by simp) ?_
      rw [if_pos (rfl : (true : Bool) = true)]
      simp
    · have hatt2 : update_attempted_flag c = false := by simpa using hatt
      have hacc : update_acc c = [] := by
        unfold update_acc
        rw [if_neg hatt]
      have hc4 : (update_attempted_flag c && c.update_succeeds) = false := by
        rw [hatt2, Bool.false_and]
      rw [hacc, hc4]
      repeat' apply tick_ite_len
      all_goals simp
  · intro st settings c hsw hir hdr hnr hha hra
    refine ⟨?_, ?_, ?_, ?_⟩
    · intro hud hav hus
      have hflag : update_attempted_flag c = true := by
        unfold update_attempted_flag
        rw [hud, hav, hdr, hnr]
        rfl
      have hbk : restart_backoff_after_update st settings c = st.restart_backoff := by
        unfold restart_backoff_after_update
        rw [hflag, hus]
        simp
      unfold run_once_actions
      rw [hbk, hha, hra]
      simp [run_once_decision, update_acc, hflag, hus, hud, hav, hsw, hir]
    · intro hnu hcd hun
      have hda : (c.update_due && c.update_available) = false := by
        cases hud : c.update_due
        · rfl
        · cases hav : c.update_available
          · rfl
          · exact absurd ⟨hud, hav⟩ hnu
      have hflag : update_attempted_flag c = false := by
        unfold update_attempted_flag
        rw [hda]
        rfl
      have hbk : restart_backoff_after_update st settings c = st.restart_backoff := by
        unfold restart_backoff_after_update
        rw [hflag, Bool.false_and]
        simp
      unfold run_once_actions
      rw [hbk, hha, hra]
      simp [run_once_decision, update_acc, hflag, hcd, hun, hsw, hir, hdr, hnr]
    · intro hnu hcd hrd hun hrs
      have hda : (c.update_due && c.update_available) = false := by
        cases hud : c.update_due
        · rfl
        · cases hav : c.update_available
          · rfl
          · exact absurd ⟨hud, hav⟩ hnu
      have hflag : update_attempted_flag c = false := by
        unfold update_attempted_flag
        rw [hda]
        rfl
      have hbk : restart_backoff_after_update st settings c = st.restart_backoff := by
        unfold restart_backoff_after_update
        rw [hflag, Bool.false_and]
        simp
      unfold run_once_actions
      rw [hbk, hha, hra]
      simp [run_once_decision, update_acc, hflag, hcd, hrd, hun, hrs, hsw,
        hir, hdr, hnr]
    · intro hnu hun
      have hda : (c.update_due && c.update_available) = false := by
        cases hud : c.update_due
        · rfl
        · cases hav : c.update_available
          · rfl
          · exact absurd ⟨hud, hav⟩ hnu
      have hflag : update_attempted_flag c = false := by
        unfold update_attempted_flag
        rw [hda]
        rfl
      have hbk : restart_backoff_after_update st settings c = st.restart_backoff := by
        unfold restart_backoff_after_update
        rw [hflag, Bool.false_and]
        simp
      have hrs : recently_started_flag c = false := by
        have h2 := hun
        simp only [unhealthy_now_flag, Bool.and_eq_true,
          Bool.not_eq_true'] at h2
        exact h2.1.2
      unfold run_once_actions
      rw [hbk, hha, hra]
      simp [run_once_decision, update_acc, hflag, hun, hrs, hsw, hir, hdr, hnr]

/-- The C1 witness: a quiet container, and one concrete container per
priority tier — update beats a due recreate and restart, recreate
beats a due restart, restart alone fires, and the unhealthy container of
the counterexample input gets health-remediation. -/
theorem claim_C1_witness :
    (run_once_actions {} {} {}).length ≤ 1 ∧
    run_once_actions {} {}
      { container_id := "cafe0004", update_due := true,
        update_available := true, recreate_due := true,
        restart_due := true } = [TickAction.update] ∧
    run_once_actions {} {}
      { container_id := "cafe0005", recreate_due := true,
        restart_due := true } = [TickAction.recreate] ∧
    run_once_actions {} {}
      { container_id := "cafe0006", restart_due := true } =
      [TickAction.restart] ∧
    run_once_actions {} {} c1_input = [TickAction.health] :=
  ⟨claim_C1_amended.1 {} {} {} rfl,
   (claim_C1_amended.2 {} {}
      { container_id := "cafe0004", update_due := true,
        update_available := true, recreate_due := true,
        restart_due := true } rfl rfl rfl rfl (by decide)
      (by decide)).1 rfl rfl rfl,
   (claim_C1_amended.2 {} {}
      { container_id := "cafe0005", recreate_due := true,
        restart_due := true } rfl rfl rfl rfl (by decide)
      (by decide)).2.1 (by decide) rfl (by decide),
   (claim_C1_amended.2 {} {}
      { container_id := "cafe0006", restart_due := true } rfl rfl rfl rfl
      (by decide) (by decide)).2.2.1 (by decide) rfl rfl (by decide)
      (by decide),
   (claim_C1_amended.2 {} {} c1_input rfl rfl rfl rfl (by decide)
      (by decide)).2.2.2 (by decide) (by decide)⟩

/-- A croniter fixture: the plain five-field expression parses (next
firing one minute after the reference), while a bracket-wrapped one makes
croniter raise, reported here as `none`. -/
def cron_next_fixture : String → Int → Option Int :=
  fun expr reference =>
    if expr = "* * * * *" then some (reference + 60) else none

def settings_prune_every_minute : Settings :=
  { prune_cron := some "* * * * *" }

/-- C2 counterexample: with no containers and a prune cron firing every
minute, `next_wakeup` returns `reference + 300`, strictly later than the
prune cron's next firing at `reference + 60` — the prune cron is not
among `next_wakeup`'s candidates. -/
theorem claim_C2_counterexample :
    next_prune_time cron_next_fixture settings_prune_every_minute 0 = some 60 ∧
    (next_wakeup cron_next_fixture [] settings_prune_every_minute 0).1 = 300 ∧
    ¬((next_wakeup cron_next_fixture [] settings_prune_every_minute 0).1 ≤ 60) := by
  refine ⟨by decide, by decide, by decide⟩

/-- C2 amended: `next_wakeup` returns the earliest instant among the
per-container schedule-label candidates only (defaulting to
`reference + 300` when there are none); the prune cron's next firing is
computed separately by `next_prune_time` and does not enter
`next_wakeup`'s result, whose value is independent of `prune_cron`. -/
theorem claim_C2_amended :
    (∀ (cron_next : String → Int → Option Int)
        (containers : List ContainerInfo) (settings : Settings)
        (reference : Int),
      ∀ cand ∈ wakeup_candidates cron_next containers settings reference,
        (next_wakeup cron_next containers settings reference).1 ≤ cand.1) ∧
    (∀ (cron_next : String → Int → Option Int)
        (containers : List ContainerInfo) (settings : Settings)
        (reference : Int),
        wakeup_candidates cron_next containers settings reference = [] →
        next_wakeup cron_next containers settings reference =
          (reference + 300, none, none)) ∧
    (∀ (cron_next : String → Int → Option Int)
        (containers : List ContainerInfo) (settings : Settings)
        (reference : Int) (p : Option String),
        next_wakeup cron_next containers
          { settings with prune_cron := p } reference =
        next_wakeup cron_next containers settings reference) := by
  refine ⟨?_, ?_, ?_⟩
  · intro cn cs s r cand hmem
    unfold next_wakeup
    cases hc : wakeup_candidates cn cs s r with
    | nil =>
        rw [hc] at hmem
        exact absurd hmem (List.not_mem_nil _)
    | cons c rest =>
        rw [hc] at hmem
        exact foldl_min_le rest c cand hmem
  · intro cn cs s r h
    unfold next_wakeup
    rw [h]
  · intro cn cs s r p
    rfl

def c2w_container : ContainerInfo :=
  { name := "web",
    labels := fun k => if k = "guerite.update" then some "* * * * *" else none }

theorem claim_C2_witness :
    (((60 : Int), some "web", some "guerite.update") ∈
        wakeup_candidates cron_next_fixture [c2w_container] {} 0 ∧
      (next_wakeup cron_next_fixture [c2w_container] {} 0).1 ≤ 60) ∧
    (wakeup_candidates cron_next_fixture [] {} 0 = [] ∧
      next_wakeup cron_next_fixture [] {} 0 = (300, none, none)) :=
  ⟨⟨by decide,
    claim_C2_amended.1 cron_next_fixture [c2w_container] {} 0
      ((60 : Int), some "web", some "guerite.update") (by decide)⟩,
   ⟨by decide,
    claim_C2_amended.2.1 cron_next_fixture [] {} 0 (by decide)⟩⟩

/-- A croniter.match fixture with the same error convention: the plain
expression matches every instant; the bracket-wrapped one raises. -/
def cron_match_fixture : String → Int → Option Bool :=
  fun expr _t => if expr = "* * * * *" then some true else none

def labels_bracketed : String → Option String :=
  fun k => if k = "guerite.update" then some "[* * * * *]" else none

def labels_plain : String → Option String :=
  fun k => if k = "guerite.update" then some "* * * * *" else none

/-- C8 counterexample: `_clean_cron_expression` would strip the brackets,
but `_cron_matches` never applies it — a container labelled
`[* * * * *]` matches nowhere, while `* * * * *` matches. -/
theorem claim_C8_counterexample :
    _clean_cron_expression (some "[* * * * *]") = some "* * * * *" ∧
    _cron_matches cron_match_fixture labels_plain "guerite.update" 0 = true ∧
    _cron_matches cron_match_fixture labels_bracketed "guerite.update" 0 = false := by
  refine ⟨by decide, by decide, by decide⟩

/-- C8 amended: bracket/quote stripping is applied only to the global
prune cron (`_prune_due` / `next_prune_time` go through
`_clean_cron_expression`); per-container schedule-label expressions reach
the parser verbatim, so a bracket-wrapped label is an invalid expression
and never matches. -/
theorem claim_C8_amended (cron_match : String → Int → Option Bool) (t : Int)
    (h1 : cron_match "* * * * *" t = some true)
    (h2 : cron_match "[* * * * *]" t = none) :
    _prune_due cron_match { prune_cron := some "[* * * * *]" } t = true ∧
    _cron_matches cron_match labels_bracketed "guerite.update" t = false := by
  constructor
  · unfold _prune_due
    have hc : _clean_cron_expression (some "[* * * * *]") = some "* * * * *" := by
      decide
    rw [hc]
    dsimp only
    rw [h1]
  · unfold _cron_matches
    have hl : labels_bracketed "guerite.update" = some "[* * * * *]" := by decide
    rw [hl]
    dsimp only
    rw [h2]

theorem claim_C8_witness :
    _prune_due cron_match_fixture { prune_cron := some "[* * * * *]" } 0 = true ∧
    _cron_matches cron_match_fixture labels_bracketed "guerite.update" 0 = false :=
  claim_C8_amended cron_match_fixture 0 (by decide) (by decide)

/-- The temporal property of claim C3: every rename-to-production attempt
in a trace is preceded by a health wait that returned success. -/
def promote_after_health (tr : List RecreateEv) : Prop :=
  ∀ pre post b, tr = pre ++ RecreateEv.promote b :: post →
    RecreateEv.health_wait true ∈ pre

theorem promote_after_health_of_no_promote (tr : List RecreateEv)
    (h : ∀ b, RecreateEv.promote b ∉ tr) : promote_after_health tr := by
  intro pre post b heq
  refine absurd ?_ (h b)
  rw [heq]
  exact List.mem_append_right _ (List.mem_cons_self _ _)

theorem promote_after_health_of (A B : List RecreateEv) (b0 : Bool)
    (hA : ∀ b, RecreateEv.promote b ∉ A)
    (hB : ∀ b, RecreateEv.promote b ∉ B)
    (hh : RecreateEv.health_wait true ∈ A) :
    promote_after_health (A ++ RecreateEv.promote b0 :: B) := by
  induction A with
  | nil => exact absurd hh (List.not_mem_nil _)
  | cons a A ih =>
      intro pre post b heq
      cases pre with
      | nil =>
          simp only [List.nil_append, List.cons_append] at heq
          have ha : a = RecreateEv.promote b := by
            injection heq with h1 h2
          exact absurd (ha ▸ List.mem_cons_self a A) (hA b)
      | cons p pre2 =>
          simp only [List.cons_append] at heq
          have hap : a = p := by injection heq with h1 h2
          have htail : A ++ RecreateEv.promote b0 :: B =
              pre2 ++ RecreateEv.promote b :: post := by
            injection heq with h1 h2
          rcases List.mem_cons.mp hh with hh1 | hh2
          · rw [hh1, hap]
            exact List.mem_cons_self p pre2
          · have hmem := ih (fun b2 hb2 => hA b2 (List.mem_cons_of_mem a hb2))
              hh2 pre2 post b htail
            exact List.mem_cons_of_mem p hmem

theorem rollback_no_promote (o : EngineOracle) (state : ContainerRecreateState)
    (cid : String) (b : Bool) :
    RecreateEv.promote b ∉ (_rollback_container_recreation o state cid).2 := by
  intro hmem
  unfold _rollback_container_recreation rollback_restore_old at hmem
  cases hn : state.new_id with
  | none =>
      rw [hn] at hmem
      split_ifs at hmem <;> simp_all
  | some nid =>
      rw [hn] at hmem
      dsimp only at hmem
      split_ifs at hmem <;> simp_all

theorem c3_fail_leaf (o : EngineOracle) (st : ContainerRecreateState)
    (cid : String) (L : List RecreateEv)
    (hL : ∀ b, RecreateEv.promote b ∉ L) :
    promote_after_health
      (L ++ RecreateEv.rollback_begin ::
        (_rollback_container_recreation o st cid).2) ∧
    ((∀ b, RecreateEv.promote b ∉
        (L ++ RecreateEv.rollback_begin ::
          (_rollback_container_recreation o st cid).2)) ∧
      RecreateEv.rollback_begin ∈
        (L ++ RecreateEv.rollback_begin ::
          (_rollback_container_recreation o st cid).2)) := by
  have hnp : ∀ b, RecreateEv.promote b ∉
      (L ++ RecreateEv.rollback_begin ::
        (_rollback_container_recreation o st cid).2) := by
    intro b hmem
    rcases List.mem_append.mp hmem with hm | hm
    · exact hL b hm
    · rcases List.mem_cons.mp hm with hm | hm
      · simp at hm
      · exact rollback_no_promote o st cid b hm
  exact ⟨promote_after_health_of_no_promote _ hnp,
    hnp, List.mem_append_right _ (List.mem_cons_self _ _)⟩

/-- C9: a recreate that returns success leaves no restart fail-count
entry and no restart back-off entry keyed by the old container's id. -/
theorem claim_C9_theorem (o : EngineOracle) (name container_id : String)
    (settings : Settings) (now : Int) (fail_count : List (String × Nat))
    (restart_backoff : List (String × Int))
    (h : (restart_container o name container_id settings now fail_count
      restart_backoff).success = true) :
    dict_get (restart_container o name container_id settings now fail_count
      restart_backoff).fail_count container_id = none ∧
    dict_get (restart_container o name container_id settings now fail_count
      restart_backoff).restart_backoff container_id = none := by
  unfold restart_container at h ⊢
  by_cases h0 : container_id.data.isEmpty = true
  · rw [if_pos h0] at h
    simp at h
  · rw [if_neg h0] at h ⊢
    by_cases h1 : (!o.rename_old_ok) = true
    · rw [if_pos h1] at h
      simp [recreate_fail] at h
    · rw [if_neg h1] at h ⊢
      by_cases h2 : (!o.create_ok) = true
      · rw [if_pos h2] at h
        simp [recreate_fail] at h
      · rw [if_neg h2] at h ⊢
        cases hcid : o.created_id with
        | none =>
            rw [hcid] at h
            simp [recreate_fail] at h
        | some nid =>
            rw [hcid] at h
            dsimp only at h ⊢
            by_cases h3 : (o.networks_with_mac && !o.attach_ok) = true
            · rw [if_pos h3] at h
              simp [recreate_fail] at h
            · rw [if_neg h3] at h ⊢
              by_cases h4 : (!o.start_ok) = true
              · rw [if_pos h4] at h
                simp [recreate_fail] at h
              · rw [if_neg h4] at h ⊢
                by_cases h5 : (o.has_healthcheck && !o.health_wait_healthy) = true
                · rw [if_pos h5] at h
                  simp [recreate_fail] at h
                · rw [if_neg h5] at h ⊢
                  by_cases h6 : (!o.promote_ok) = true
                  · rw [if_pos h6] at h
                    simp [recreate_fail] at h
                  · rw [if_neg h6] at h ⊢
                    exact ⟨dict_get_pop_self fail_count container_id,
                           dict_get_pop_self restart_backoff container_id⟩

/-- C3: when the source container has a healthcheck, every rename of the
new container to the production name happens only after the health wait
reported success; if the wait fails, the production rename never happens
and rollback is entered. -/
theorem claim_C3_theorem (o : EngineOracle) (name container_id : String)
    (settings : Settings) (now : Int) (fail_count : List (String × Nat))
    (restart_backoff : List (String × Int))
    (hhc : o.has_healthcheck = true)
    (hid : container_id.data.isEmpty = false) :
    promote_after_health (restart_container o name container_id settings now
      fail_count restart_backoff).trace ∧
    (o.health_wait_healthy = false →
      (∀ b, RecreateEv.promote b ∉ (restart_container o name container_id
        settings now fail_count restart_backoff).trace) ∧
      RecreateEv.rollback_begin ∈ (restart_container o name container_id
        settings now fail_count restart_backoff).trace) := by
  unfold restart_container
  rw [if_neg (by simp [hid])]
  by_cases h1 : (!o.rename_old_ok) = true
  · rw [if_pos h1]
    simp only [recreate_fail]
    refine ⟨(c3_fail_leaf o _ container_id _ ?_).1,
        fun _ => (c3_fail_leaf o _ container_id _ ?_).2⟩ <;>
      (intro b hmem; simp at hmem)
  · rw [if_neg h1]
    by_cases h2 : (!o.create_ok) = true
    · rw [if_pos h2]
      simp only [recreate_fail]
      refine ⟨(c3_fail_leaf o _ container_id _ ?_).1,
          fun _ => (c3_fail_leaf o _ container_id _ ?_).2⟩ <;>
        (intro b hmem; simp at hmem)
    · rw [if_neg h2]
      cases hcid : o.created_id with
      | none =>
          simp only [recreate_fail]
          refine ⟨(c3_fail_leaf o _ container_id _ ?_).1,
              fun _ => (c3_fail_leaf o _ container_id _ ?_).2⟩ <;>
            (intro b hmem; simp at hmem)
      | some nid =>
          dsimp only
          by_cases hnm : o.networks_with_mac = true
          · rw [hnm]
            simp only [Bool.true_and, if_pos rfl]
            by_cases ha : (!o.attach_ok) = true
            · rw [if_pos ha]
              simp only [recreate_fail]
              refine ⟨(c3_fail_leaf o _ container_id _ ?_).1,
                  fun _ => (c3_fail_leaf o _ container_id _ ?_).2⟩ <;>
                (intro b hmem; simp at hmem)
            · rw [if_neg ha]
              by_cases h4 : (!o.start_ok) = true
              · rw [if_pos h4]
                simp only [recreate_fail]
                refine ⟨(c3_fail_leaf o _ container_id _ ?_).1,
                    fun _ => (c3_fail_leaf o _ container_id _ ?_).2⟩ <;>
                  (intro b hmem; simp at hmem)
              · rw [if_neg h4]
                rw [hhc]
                simp only [Bool.true_and, if_pos rfl]
                by_cases h5 : (!o.health_wait_healthy) = true
                · rw [if_pos h5]
                  simp only [recreate_fail]
                  refine ⟨(c3_fail_leaf o _ container_id _ ?_).1,
                      fun _ => (c3_fail_leaf o _ container_id _ ?_).2⟩ <;>
                    (intro b hmem; simp at hmem)
                · rw [if_neg h5]
                  by_cases h6 : (!o.promote_ok) = true
                  · rw [if_pos h6]
                    simp only [recreate_fail]
                    constructor
                    · rw [List.append_assoc, List.singleton_append]
                      refine promote_after_health_of _ _ false ?_ ?_ ?_
                      · intro b hmem
                        simp at hmem
                      · intro b hmem
                        rcases List.mem_cons.mp hmem with hm | hm
                        · simp at hm
                        · exact rollback_no_promote o _ container_id b hm
                      · exact List.mem_append_right _ (List.mem_cons_self _ _)
                    · intro hwh
                      rw [hwh] at h5
                      simp at h5
                  · rw [if_neg h6]
                    constructor
                    · refine promote_after_health_of _ _ true ?_ ?_ ?_
                      · intro b hmem
                        simp at hmem
                      · intro b hmem
                        simp at hmem
                      · exact List.mem_append_right _ (List.mem_cons_self _ _)
                    · intro hwh
                      rw [hwh] at h5
                      simp at h5
          · have hnm2 : o.networks_with_mac = false := by
              simpa using hnm
            rw [hnm2]
            simp only [Bool.false_and, Bool.false_eq_true, if_false]
            by_cases h4 : (!o.start_ok) = true
            · rw [if_pos h4]
              simp only [recreate_fail]
              refine ⟨(c3_fail_leaf o _ container_id _ ?_).1,
                  fun _ => (c3_fail_leaf o _ container_id _ ?_).2⟩ <;>
                (intro b hmem; simp at hmem)
            · rw [if_neg h4]
              rw [hhc]
              simp only [Bool.true_and, if_pos rfl]
              by_cases h5 : (!o.health_wait_healthy) = true
              · rw [if_pos h5]
                simp only [recreate_fail]
                refine ⟨(c3_fail_leaf o _ container_id _ ?_).1,
                    fun _ => (c3_fail_leaf o _ container_id _ ?_).2⟩ <;>
                  (intro b hmem; simp at hmem)
              · rw [if_neg h5]
                by_cases h6 : (!o.promote_ok) = true
                · rw [if_pos h6]
                  simp only [recreate_fail]
                  constructor
                  · rw [List.append_assoc, List.singleton_append]
                    refine promote_after_health_of _ _ false ?_ ?_ ?_
                    · intro b hmem
                      simp at hmem
                    · intro b hmem
                      rcases List.mem_cons.mp hmem with hm | hm
                      · simp at hm
                      · exact rollback_no_promote o _ container_id b hm
                    · exact List.mem_append_right _ (List.mem_cons_self _ _)
                  · intro hwh
                    rw [hwh] at h5
                    simp at h5
                · rw [if_neg h6]
                  constructor
                  · refine promote_after_health_of _ _ true ?_ ?_ ?_
                    · intro b hmem
                      simp at hmem
                    · intro b hmem
                      simp at hmem
                    · exact List.mem_append_right _ (List.mem_cons_self _ _)
                  · intro hwh
                    rw [hwh] at h5
                    simp at h5

/-- The ordering property of claim C4: once the old container's
rename-back appears in a rollback trace, no new-container cleanup attempt
(removal, retry, rename-away, rename-to-failed) comes after it. -/
def old_rename_last (tr : List RecreateEv) : Prop :=
  ∀ pre post b, tr = pre ++ RecreateEv.rb_rename_old_to_base b :: post →
    ∀ b2, RecreateEv.rb_remove_new b2 ∉ post ∧
      RecreateEv.rb_remove_new_retry b2 ∉ post ∧
      RecreateEv.rb_rename_new_to_failed b2 ∉ post ∧
      RecreateEv.rb_rename_new_to_temp b2 ∉ post

theorem old_rename_last_of_no (tr : List RecreateEv)
    (h : ∀ b, RecreateEv.rb_rename_old_to_base b ∉ tr) :
    old_rename_last tr := by
  intro pre post b heq
  refine absurd ?_ (h b)
  rw [heq]
  exact List.mem_append_right _ (List.mem_cons_self _ _)

theorem old_rename_unique_split (A B : List RecreateEv) (b0 : Bool)
    (hA : ∀ b, RecreateEv.rb_rename_old_to_base b ∉ A)
    (hB : ∀ b, RecreateEv.rb_rename_old_to_base b ∉ B) :
    ∀ pre post b, A ++ RecreateEv.rb_rename_old_to_base b0 :: B =
      pre ++ RecreateEv.rb_rename_old_to_base b :: post → post = B := by
  induction A with
  | nil =>
      intro pre post b heq
      cases pre with
      | nil =>
          simp only [List.nil_append] at heq
          injection heq with h1 h2
          exact h2.symm
      | cons p pre2 =>
          simp only [List.nil_append, List.cons_append] at heq
          have htail : B = pre2 ++ RecreateEv.rb_rename_old_to_base b :: post := by
            injection heq
          refine absurd ?_ (hB b)
          rw [htail]
          exact List.mem_append_right _ (List.mem_cons_self _ _)
  | cons a A ih =>
      intro pre post b heq
      cases pre with
      | nil =>
          simp only [List.cons_append, List.nil_append] at heq
          have ha : a = RecreateEv.rb_rename_old_to_base b := by
            injection heq
          exact absurd (ha ▸ List.mem_cons_self a A) (hA b)
      | cons p pre2 =>
          simp only [List.cons_append] at heq
          have htail : A ++ RecreateEv.rb_rename_old_to_base b0 :: B =
              pre2 ++ RecreateEv.rb_rename_old_to_base b :: post := by
            injection heq
          exact ih (fun b2 hb2 => hA b2 (List.mem_cons_of_mem a hb2))
            pre2 post b htail

theorem old_rename_last_of_append (A B : List RecreateEv) (b0 : Bool)
    (hA : ∀ b, RecreateEv.rb_rename_old_to_base b ∉ A)
    (hB1 : ∀ b, RecreateEv.rb_rename_old_to_base b ∉ B)
    (hB2 : ∀ b2, RecreateEv.rb_remove_new b2 ∉ B ∧
      RecreateEv.rb_remove_new_retry b2 ∉ B ∧
      RecreateEv.rb_rename_new_to_failed b2 ∉ B ∧
      RecreateEv.rb_rename_new_to_temp b2 ∉ B) :
    old_rename_last (A ++ RecreateEv.rb_rename_old_to_base b0 :: B) := by
  intro pre post b heq
  have hpost : post = B :=
    old_rename_unique_split A B b0 hA hB1 pre post b heq
  rw [hpost]
  exact hB2

theorem restore_old_false (o : EngineOracle) (st : ContainerRecreateState)
    (cid : String) (tr : List RecreateEv) :
    (rollback_restore_old o st cid false tr).1 = false := by
  unfold rollback_restore_old
  split_ifs <;> rfl

theorem restore_old_mem (o : EngineOracle) (st : ContainerRecreateState)
    (cid : String) (s : Bool) (tr : List RecreateEv) (e : RecreateEv)
    (he : e ∈ tr) : e ∈ (rollback_restore_old o st cid s tr).2 := by
  unfold rollback_restore_old
  split_ifs <;> simp [he]

theorem old_rename_last_restore (o : EngineOracle)
    (st : ContainerRecreateState) (cid : String) (s : Bool)
    (tr : List RecreateEv)
    (hA : ∀ b, RecreateEv.rb_rename_old_to_base b ∉ tr) :
    old_rename_last (rollback_restore_old o st cid s tr).2 := by
  unfold rollback_restore_old
  split_ifs
  · exact old_rename_last_of_append tr
      [RecreateEv.rb_start_old o.rb_start_old_ok] true hA (by simp)
      (by intro b2; simp)
  · exact old_rename_last_of_append tr [] false hA (by simp)
      (by intro b2; simp)
  · exact old_rename_last_of_no tr hA

/-- C4 counterexample: when removing the new container fails and renaming
it away also fails, the rollback still attempts the old container's
rename-back, even though the new container may still hold the production
name (no cleanup attempt succeeded). -/
def c4_oracle : EngineOracle :=
  { rb_rename_temp_ok := false, rb_remove_ok := false,
    rb_rename_failed_ok := false, rb_rename_old_ok := false }

def c4_state : ContainerRecreateState :=
  { old_renamed := true, new_id := some "feedc0de",
    new_renamed_to_production := true, original_name := some "web",
    temp_new_name := some "web-guerite-new-feedc0de" }

theorem claim_C4_counterexample :
    (RecreateEv.rb_rename_old_to_base false ∈
      (_rollback_container_recreation c4_oracle c4_state "cafe0001").2) ∧
    RecreateEv.rb_remove_new true ∉
      (_rollback_container_recreation c4_oracle c4_state "cafe0001").2 ∧
    RecreateEv.rb_remove_new_retry true ∉
      (_rollback_container_recreation c4_oracle c4_state "cafe0001").2 ∧
    RecreateEv.rb_rename_new_to_failed true ∉
      (_rollback_container_recreation c4_oracle c4_state "cafe0001").2 ∧
    RecreateEv.rb_rename_new_to_temp true ∉
      (_rollback_container_recreation c4_oracle c4_state "cafe0001").2 := by
  decide

/-- C4 amended: the rollback always attempts the new-container cleanup
before the old container's rename-back — no cleanup attempt ever follows
the rename-back in the trace — and whenever the rename-back occurs with a
new container present, either some cleanup attempt succeeded (removal,
retried removal, or rename-to-failed freed the production name) or the
rollback is marked failed; in the latter case the rename-back is still
attempted. -/
theorem claim_C4_amended (o : EngineOracle) (st : ContainerRecreateState)
    (cid : String) :
    old_rename_last (_rollback_container_recreation o st cid).2 ∧
    (∀ b nid, RecreateEv.rb_rename_old_to_base b ∈
        (_rollback_container_recreation o st cid).2 →
      st.new_id = some nid →
      (RecreateEv.rb_remove_new true ∈
          (_rollback_container_recreation o st cid).2 ∨
        RecreateEv.rb_remove_new_retry true ∈
          (_rollback_container_recreation o st cid).2 ∨
        RecreateEv.rb_rename_new_to_failed true ∈
          (_rollback_container_recreation o st cid).2) ∨
      (_rollback_container_recreation o st cid).1 = false) := by
  unfold _rollback_container_recreation
  cases hn : st.new_id with
  | none =>
      constructor
      · exact old_rename_last_restore o st cid true [] (by simp)
      · intro b nid _hmem heq
        simp at heq
  | some x =>
      dsimp only
      split_ifs <;>
        refine ⟨old_rename_last_restore o st cid _ _ (by intro b; simp),
                fun b nid _hmem _heq => ?_⟩ <;>
        first
          | exact Or.inr (restore_old_false o st cid _)
          | (refine Or.inl (Or.inl (restore_old_mem o st cid _ _ _ ?_))
             simp
             done)
          | (refine Or.inl (Or.inr (Or.inl
                (restore_old_mem o st cid _ _ _ ?_)))
             simp
             done)

def c4w_state : ContainerRecreateState :=
  { old_renamed := true, new_id := some "feedc0de",
    original_name := some "web" }

theorem claim_C4_witness :
    old_rename_last (_rollback_container_recreation {} c4w_state "cafe0001").2 ∧
    (RecreateEv.rb_rename_old_to_base true ∈
        (_rollback_container_recreation {} c4w_state "cafe0001").2 ∧
      c4w_state.new_id = some "feedc0de") ∧
    ((RecreateEv.rb_remove_new true ∈
        (_rollback_container_recreation {} c4w_state "cafe0001").2 ∨
      RecreateEv.rb_remove_new_retry true ∈
        (_rollback_container_recreation {} c4w_state "cafe0001").2 ∨
      RecreateEv.rb_rename_new_to_failed true ∈
        (_rollback_container_recreation {} c4w_state "cafe0001").2) ∨
      (_rollback_container_recreation {} c4w_state "cafe0001").1 = false) :=
  ⟨(claim_C4_amended {} c4w_state "cafe0001").1,
   ⟨by decide, by decide⟩,
   (claim_C4_amended {} c4w_state "cafe0001").2 true "feedc0de"
     (by decide) (by decide)⟩

def c3_oracle : EngineOracle :=
  { has_healthcheck := true, health_wait_healthy := false }

theorem claim_C3_witness :
    promote_after_health
      (restart_container c3_oracle "web" "cafe0001" {} 0 [] []).trace ∧
    ((∀ b, RecreateEv.promote b ∉
        (restart_container c3_oracle "web" "cafe0001" {} 0 [] []).trace) ∧
      RecreateEv.rollback_begin ∈
        (restart_container c3_oracle "web" "cafe0001" {} 0 [] []).trace) :=
  ⟨(claim_C3_theorem c3_oracle "web" "cafe0001" {} 0 [] []
      (by decide) (by decide)).1,
   (claim_C3_theorem c3_oracle "web" "cafe0001" {} 0 [] []
      (by decide) (by decide)).2 (by decide)⟩

theorem claim_C9_witness :
    ((restart_container {} "web" "cafe0001feedc0de" {} 0
        [("cafe0001feedc0de", 2)] [("cafe0001feedc0de", 99)]).success = true) ∧
    dict_get (restart_container {} "web" "cafe0001feedc0de" {} 0
        [("cafe0001feedc0de", 2)] [("cafe0001feedc0de", 99)]).fail_count
      "cafe0001feedc0de" = none ∧
    dict_get (restart_container {} "web" "cafe0001feedc0de" {} 0
        [("cafe0001feedc0de", 2)] [("cafe0001feedc0de", 99)]).restart_backoff
      "cafe0001feedc0de" = none := by
  refine ⟨by decide, ?_⟩
  exact claim_C9_theorem {} "web" "cafe0001feedc0de" {} 0
    [("cafe0001feedc0de", 2)] [("cafe0001feedc0de", 99)] (by decide)
